import Mathlib

/-!
Shallow embedding of the PFT_DriverLog server (src/server.js) — the
data-ingestion and reporting core: JS value coercion as performed by the
ingestion handler, the sqlite schema rows, the ingestion write path with its
transaction structure, the storage-layer referential-integrity operations,
the three filtered read paths (admin view, daily-logs export, daily-stops
export), the aggregate statistics, and the CSV serialization entry.

Conventions of the embedding:
* JS numbers are modelled as `Option ℚ`, with `none` standing for `NaN`.
  The storage engine (SQLite, via better-sqlite3) stores a bound `NaN`
  double as SQL `NULL` (sqlite3VdbeMemSetDouble leaves the cell NULL for
  NaN), so a stored numeric column is likewise `Option ℚ` with `none` =
  SQL NULL.
* `Number(s)` on strings is modelled on the decimal-literal fragment
  (optional sign, digits, optional fraction); hex/exponent/Infinity forms
  are outside the fragment the claims exercise.
* Payload field values are the JSON fragment the handler can actually
  receive and bind: absent (`undefined`), `null`, strings and numbers.
* better-sqlite3 compiles SQLite with foreign-key enforcement on by
  default, so the declared `FOREIGN KEY (log_id) REFERENCES logs(id)
  ON DELETE CASCADE` is live; the storage-layer operations model that.
* Timestamps: `dayjs().toISOString()` and `dayjs().format("YYYY-MM-DD")`
  are passed in as the `now` / `today` parameters of `submit`.
-/

/-- A JSON-ish JavaScript value as the ingestion handler sees a field:
absent property access (`undefined`), `null`, a string, or a number. -/
inductive JVal : Type
  | undef : JVal
  | null : JVal
  | str : String → JVal
  | num : ℚ → JVal
  deriving DecidableEq

/-- JavaScript truthiness of a `JVal`: `undefined` and `null` are falsy,
a string is truthy iff non-empty, a number is truthy iff non-zero. -/
def JVal.truthy : JVal → Bool
  | .undef => false
  | .null => false
  | .str s => !(s = "")
  | .num q => !(q = 0)

/-- The JavaScript `a || b` default idiom used throughout the handler:
the left value if truthy, otherwise the default. -/
def jOr (v d : JVal) : JVal := if v.truthy then v else d

/-- Numeric value of one decimal digit character. -/
def digToNat (c : Char) : ℕ := c.toNat - 48

/-- Value of a digit string read in base 10. -/
def natOfDigits (l : List Char) : ℕ := l.foldl (fun n c => 10 * n + digToNat c) 0

/-- Unsigned decimal literal: digits, optionally followed by a dot and more
digits (`"5"`, `"5."`, `".5"`, `"2.75"`); anything else is NaN (`none`). -/
def parseUnsigned (l : List Char) : Option ℚ :=
  let intPart := l.takeWhile Char.isDigit
  let rest := l.dropWhile Char.isDigit
  match rest with
  | [] => if intPart = [] then none else some (natOfDigits intPart)
  | '.' :: frac =>
      if frac.all Char.isDigit && !(intPart = [] && frac = []) then
        some ((natOfDigits intPart : ℚ) + (natOfDigits frac : ℚ) / (10 ^ frac.length : ℚ))
      else none
  | _ => none

/-- Decimal literal with an optional leading sign. -/
def parseSigned (l : List Char) : Option ℚ :=
  match l with
  | '-' :: r => (parseUnsigned r).map (fun q => -q)
  | '+' :: r => parseUnsigned r
  | _ => parseUnsigned l

/-- Whitespace recognised by JS string-to-number trimming (ASCII fragment). -/
def isWs (c : Char) : Bool := c = ' ' || c = '\t' || c = '\n' || c = '\r'

/-- Trim leading and trailing whitespace. -/
def trimWs (l : List Char) : List Char :=
  ((l.dropWhile isWs).reverse.dropWhile isWs).reverse

/-- JS `Number(string)` on the decimal fragment: trimmed empty string is 0,
a decimal literal is its value, anything else is NaN (`none`). -/
def parseNumber (s : String) : Option ℚ :=
  let t := trimWs s.toList
  if t = [] then some 0 else parseSigned t

/-- JS `Number(v)` coercion; `none` is NaN. `Number(undefined)` is NaN,
`Number(null)` is 0. -/
def JVal.toNumber : JVal → Option ℚ
  | .undef => none
  | .null => some 0
  | .str s => parseNumber s
  | .num q => some q

/-- Text stored for a bound value in a TEXT-affinity column. Through
`textField` this only ever sees a truthy string or the string default, but
it is total: SQLite TEXT affinity renders a bound number as text. -/
def toText : JVal → String
  | .str s => s
  | .num q => toString q
  | .undef => ""
  | .null => ""

/-- The handler's numeric-field coercion `Number(d.x || 0)` followed by
binding: falsy input gives 0, otherwise JS numeric coercion; a NaN result
is persisted as SQL NULL (`none`). -/
def numField (v : JVal) : Option ℚ := (jOr v (.num 0)).toNumber

/-- The handler's text-field coercion `d.x || ""` followed by binding into
a TEXT-affinity column. -/
def textField (v : JVal) : String := toText (jOr v (.str ""))

/-- ASCII lower-casing, as SQLite's default `LIKE` applies to both sides. -/
def asciiLower (c : Char) : Char :=
  if 'A' ≤ c ∧ c ≤ 'Z' then Char.ofNat (c.toNat + 32) else c

/-- Character match for SQLite `LIKE`: ASCII-case-insensitive equality. -/
def likeCharEq (p c : Char) : Bool := asciiLower p = asciiLower c

/-- Try the continuation `k` on every suffix of the subject: the search a
`%` wildcard performs (it may swallow any prefix). -/
def starHelper (k : List Char → Bool) : List Char → Bool
  | [] => k []
  | c :: ss1 => k (c :: ss1) || starHelper k ss1

/-- SQLite `LIKE` pattern matching on character lists: `%` matches any
(possibly empty) substring, `_` any single character, other characters
match ASCII-case-insensitively. -/
def likeM : List Char → List Char → Bool
  | [], ss => ss.isEmpty
  | p :: ps, ss =>
    if p = '%' then starHelper (likeM ps) ss
    else
      match ss with
      | [] => false
      | c :: ss1 => (if p = '_' then true else likeCharEq p c) && likeM ps ss1

/-- SQLite `driver_name LIKE ?` on strings. -/
def sqlLike (pat s : String) : Bool := likeM pat.toList s.toList

/-- Literal prefix test on character lists (exact, case-sensitive). -/
def isPrefixL : List Char → List Char → Bool
  | [], _ => true
  | _ :: _, [] => false
  | a :: as, b :: bs => a = b && isPrefixL as bs

/-- Literal substring test on character lists. -/
def containsLitL (p : List Char) : List Char → Bool
  | [] => isPrefixL p []
  | c :: rest => isPrefixL p (c :: rest) || containsLitL p rest

/-- Exact literal substring containment on strings (no wildcard reading). -/
def containsLit (pat s : String) : Bool := containsLitL pat.toList s.toList

/-- One row of the `logs` table (src/server.js lines 36-55). Numeric REAL
columns are `Option ℚ` (`none` = SQL NULL); TEXT columns written by the
handler are strings. -/
structure LogRow : Type where
  id : ℕ
  created_at : String
  date : String
  driver_name : String
  driver_email : String
  cc_email : String
  truck_num : String
  start_miles : Option ℚ
  end_miles : Option ℚ
  start_time : String
  end_time : String
  rate_mile : Option ℚ
  rate_hour : Option ℚ
  total_miles : Option ℚ
  total_time : String
  total_detention : String
  total_value_hours : Option ℚ
  gross_pay : Option ℚ
  deriving DecidableEq

/-- One row of the `stops` table (src/server.js lines 56-69). -/
structure StopRow : Type where
  id : ℕ
  log_id : ℕ
  stop_no : Option ℚ
  type : String
  location : String
  arrive : String
  depart : String
  duration : String
  detention : String
  value_hours : Option ℚ
  grain_phase : String
  deriving DecidableEq

/-- Storage state: the two tables plus the AUTOINCREMENT counters
(SQLite rowids start at 1). -/
structure DB : Type where
  logs : List LogRow
  stops : List StopRow
  nextLogId : ℕ
  nextStopId : ℕ
  deriving DecidableEq

/-- A fresh database file: empty tables, rowid counters at 1. -/
def dbEmpty : DB := { logs := [], stops := [], nextLogId := 1, nextStopId := 1 }

/-- One element of the submitted `stops` array, as field accesses see it. -/
structure StopPayload : Type where
  stop_no : JVal := .undef
  type : JVal := .undef
  location : JVal := .undef
  arrive : JVal := .undef
  depart : JVal := .undef
  duration : JVal := .undef
  detention : JVal := .undef
  value_hours : JVal := .undef
  grain_phase : JVal := .undef
  deriving DecidableEq

/-- The `stops` property of the request body: either an actual JS array of
stop objects, or any other value (which `Array.isArray` rejects). -/
inductive StopsField : Type
  | arr : List StopPayload → StopsField
  | jsval : JVal → StopsField
  deriving DecidableEq

/-- The request body `d = req.body || {}` restricted to the fields the
handler reads. An absent property reads as `JVal.undef`. -/
structure Payload : Type where
  date : JVal := .undef
  driver_name : JVal := .undef
  driver_email : JVal := .undef
  cc_email : JVal := .undef
  truck_num : JVal := .undef
  start_miles : JVal := .undef
  end_miles : JVal := .undef
  start_time : JVal := .undef
  end_time : JVal := .undef
  rate_mile : JVal := .undef
  rate_hour : JVal := .undef
  total_miles : JVal := .undef
  total_time : JVal := .undef
  total_detention : JVal := .undef
  total_value_hours : JVal := .undef
  gross_pay : JVal := .undef
  stops : StopsField := .jsval .undef
  deriving DecidableEq

/-- The empty submission `{}`. -/
def emptyPayload : Payload := {}

/-- A stop object `{}` with every property absent. -/
def emptyStopPayload : StopPayload := {}

/-- `Array.isArray(d.stops) ? d.stops : []` (src/server.js line 115). -/
def stopsOf (d : Payload) : List StopPayload :=
  match d.stops with
  | .arr l => l
  | .jsval _ => []

/-- The `logs` row built by `insLog.run(...)` (src/server.js lines 91-109):
server-assigned creation timestamp, `d.date || today`, `|| ""` text
defaults, `Number(d.x || 0)` numeric coercions. -/
def mkLogRow (d : Payload) (now today : String) (id : ℕ) : LogRow :=
  { id := id
    created_at := now
    date := toText (jOr d.date (.str today))
    driver_name := textField d.driver_name
    driver_email := textField d.driver_email
    cc_email := textField d.cc_email
    truck_num := textField d.truck_num
    start_miles := numField d.start_miles
    end_miles := numField d.end_miles
    start_time := textField d.start_time
    end_time := textField d.end_time
    rate_mile := numField d.rate_mile
    rate_hour := numField d.rate_hour
    total_miles := numField d.total_miles
    total_time := textField d.total_time
    total_detention := textField d.total_detention
    total_value_hours := numField d.total_value_hours
    gross_pay := numField d.gross_pay }

/-- The `stops` row built by `insStop.run(...)` (src/server.js lines
118-129); `value_hours` is the ternary
`s.value_hours === "" ? null : Number(s.value_hours || 0)`. -/
def mkStopRow (logId sid : ℕ) (s : StopPayload) : StopRow :=
  { id := sid
    log_id := logId
    stop_no := numField s.stop_no
    type := textField s.type
    location := textField s.location
    arrive := textField s.arrive
    depart := textField s.depart
    duration := textField s.duration
    detention := textField s.detention
    value_hours := if s.value_hours = .str "" then none else numField s.value_hours
    grain_phase := textField s.grain_phase }

/-- `insLog.run(...)` at top level of the handler: a single-statement
autocommitting insert. Returns the new state and `lastInsertRowid`. -/
def insertLogRow (db : DB) (r : LogRow) : DB × ℕ :=
  ({ db with logs := db.logs ++ [r], nextLogId := db.nextLogId + 1 }, db.nextLogId)

/-- Append one stop row inside the transaction body. -/
def appendStop (logId : ℕ) (s : StopPayload) (db : DB) : DB :=
  { db with
    stops := db.stops ++ [mkStopRow logId db.nextStopId s]
    nextStopId := db.nextStopId + 1 }

/-- The body of `db.transaction((rows) => { for ... insStop.run(...) })`:
sequential stop inserts; `fails i = true` models a storage failure (disk
I/O, constraint violation) thrown by the i-th `insStop.run`. A failure
aborts the whole transaction: `none`, and the caller's pre-transaction
state is what remains (rollback). -/
def stopsTxGo (logId : ℕ) (fails : ℕ → Bool) : ℕ → List StopPayload → DB → Option DB
  | _, [], db => some db
  | i, s :: rest, db =>
      if fails i then none else stopsTxGo logId fails (i + 1) rest (appendStop logId s db)

/-- `tx(stops)` (src/server.js line 132). -/
def stopsTx (logId : ℕ) (ss : List StopPayload) (fails : ℕ → Bool) (db : DB) : Option DB :=
  stopsTxGo logId fails 0 ss db

/-- The whole `POST /api/logs` handler (src/server.js lines 86-135): the
log insert autocommits first, then the stop inserts run inside one
transaction. `.ok (db2, id)` models the `{ok: true, id}` response;
`.error db1` models a thrown storage error (request fails with a server
error) together with the storage state left behind — note the state after
the log insert, since that insert is outside the transaction. -/
def submit (d : Payload) (now today : String) (fails : ℕ → Bool) (db : DB) :
    Except DB (DB × ℕ) :=
  let ins := insertLogRow db (mkLogRow d now today db.nextLogId)
  match stopsTx ins.2 (stopsOf d) fails ins.1 with
  | some db2 => .ok (db2, ins.2)
  | none => .error ins.1

/-- The error-branch state of a submission outcome, if any. -/
def errState : Except DB (DB × ℕ) → Option DB
  | .error db => some db
  | .ok _ => none

/-- Storage-layer raw stop insert: better-sqlite3 enforces the declared
foreign key, so an insert whose `log_id` matches no `logs` row is rejected
(`none`). -/
def insertStopRaw (db : DB) (r : StopRow) : Option DB :=
  if db.logs.any (fun l => l.id = r.log_id) then
    some { db with stops := db.stops ++ [r] }
  else none

/-- Storage-layer delete of a log row: per the schema's
`FOREIGN KEY (log_id) REFERENCES logs(id) ON DELETE CASCADE`
(src/server.js line 68), deleting a log also deletes its stops. -/
def deleteLog (db : DB) (i : ℕ) : DB :=
  { db with
    logs := db.logs.filter (fun l => !(l.id = i))
    stops := db.stops.filter (fun s => !(s.log_id = i)) }

/-- Storage well-formedness: log ids are pairwise distinct and below the
AUTOINCREMENT counter, and every stop references some log. -/
def wf (db : DB) : Prop :=
  (db.logs.map (fun l => l.id)).Nodup ∧
    (∀ l ∈ db.logs, l.id < db.nextLogId) ∧
    ∀ s ∈ db.stops, ∃ l ∈ db.logs, l.id = s.log_id

/-- A filter set as destructured from `req.query`: each of `from`, `to`,
`driver` is an optional string (`from`/`to` renamed, being Lean keywords). -/
structure QueryFilter : Type where
  dateFrom : Option String := none
  dateTo : Option String := none
  driver : Option String := none
  deriving DecidableEq

/-- The admin view's WHERE predicate (src/server.js lines 140-145): each
truthy query parameter contributes one AND-ed clause — `date >= ?`,
`date <= ?`, `driver_name LIKE ?` with parameter `%driver%`. -/
def adminMatches (f : QueryFilter) (r : LogRow) : Bool :=
  (match f.dateFrom with
   | some a => if a = "" then true else decide (a ≤ r.date)
   | none => true) &&
  (match f.dateTo with
   | some b => if b = "" then true else decide (r.date ≤ b)
   | none => true) &&
  (match f.driver with
   | some d => if d = "" then true else sqlLike ("%" ++ d ++ "%") r.driver_name
   | none => true)

/-- The daily-logs export's WHERE predicate (src/server.js lines 176-181),
transcribed from its own code site (the construction is duplicated there). -/
def dailyLogsMatches (f : QueryFilter) (r : LogRow) : Bool :=
  (match f.dateFrom with
   | some a => if a = "" then true else decide (a ≤ r.date)
   | none => true) &&
  (match f.dateTo with
   | some b => if b = "" then true else decide (r.date ≤ b)
   | none => true) &&
  (match f.driver with
   | some d => if d = "" then true else sqlLike ("%" ++ d ++ "%") r.driver_name
   | none => true)

/-- One row of the stops-export join
`SELECT l.date, l.driver_name, l.truck_num, s.* ... JOIN logs l ON l.id = s.log_id`
(src/server.js lines 212-218). `log_id` carries `l.id` for the ORDER BY. -/
structure StopJoinRow : Type where
  date : String
  driver_name : String
  truck_num : String
  log_id : ℕ
  stop_no : Option ℚ
  type : String
  location : String
  arrive : String
  depart : String
  duration : String
  detention : String
  value_hours : Option ℚ
  grain_phase : String
  deriving DecidableEq

/-- Join a stop to its parent log row. -/
def joinRow (l : LogRow) (s : StopRow) : StopJoinRow :=
  { date := l.date
    driver_name := l.driver_name
    truck_num := l.truck_num
    log_id := l.id
    stop_no := s.stop_no
    type := s.type
    location := s.location
    arrive := s.arrive
    depart := s.depart
    duration := s.duration
    detention := s.detention
    value_hours := s.value_hours
    grain_phase := s.grain_phase }

/-- The stops export's WHERE predicate (src/server.js lines 206-211): the
same three clauses, applied to the parent log's `l.date` / `l.driver_name`
carried on the joined row. -/
def dailyStopsMatches (f : QueryFilter) (r : StopJoinRow) : Bool :=
  (match f.dateFrom with
   | some a => if a = "" then true else decide (a ≤ r.date)
   | none => true) &&
  (match f.dateTo with
   | some b => if b = "" then true else decide (r.date ≤ b)
   | none => true) &&
  (match f.driver with
   | some d => if d = "" then true else sqlLike ("%" ++ d ++ "%") r.driver_name
   | none => true)

/-- `ORDER BY date DESC, id DESC` of the admin view (src/server.js line
147): `a` precedes `b` when `a` is lexicographically at least `b` on
(date, id), descending. SQLite compares TEXT dates bytewise, which for
ISO dates agrees with string order. -/
def adminOrder (a b : LogRow) : Prop :=
  b.date < a.date ∨ (b.date = a.date ∧ b.id ≤ a.id)

/-- `ORDER BY date ASC, id ASC` of the daily-logs export (line 182). -/
def exportOrder (a b : LogRow) : Prop :=
  a.date < b.date ∨ (a.date = b.date ∧ a.id ≤ b.id)

/-- `stop_no` comparison under `ORDER BY ... ASC`: SQL NULL sorts first. -/
def optLeQ : Option ℚ → Option ℚ → Prop
  | none, _ => True
  | some _, none => False
  | some a, some b => a ≤ b

/-- `ORDER BY l.date ASC, l.id ASC, s.stop_no ASC` of the stops export
(src/server.js line 217). -/
def stopOrder (a b : StopJoinRow) : Prop :=
  a.date < b.date ∨
    (a.date = b.date ∧
      (a.log_id < b.log_id ∨ (a.log_id = b.log_id ∧ optLeQ a.stop_no b.stop_no)))

instance : DecidableRel adminOrder := fun a b =>
  inferInstanceAs (Decidable (b.date < a.date ∨ (b.date = a.date ∧ b.id ≤ a.id)))

instance : DecidableRel exportOrder := fun a b =>
  inferInstanceAs (Decidable (a.date < b.date ∨ (a.date = b.date ∧ a.id ≤ b.id)))

instance : ∀ x y, Decidable (optLeQ x y)
  | none, _ => isTrue trivial
  | some _, none => isFalse (fun h => h)
  | some a, some b => inferInstanceAs (Decidable (a ≤ b))

instance : DecidableRel stopOrder := fun a b =>
  inferInstanceAs
    (Decidable
      (a.date < b.date ∨
        (a.date = b.date ∧
          (a.log_id < b.log_id ∨ (a.log_id = b.log_id ∧ optLeQ a.stop_no b.stop_no)))))

/-- `SELECT * FROM logs WHERE ... ORDER BY date DESC, id DESC` of the
admin view (src/server.js line 147). -/
def adminRows (db : DB) (f : QueryFilter) : List LogRow :=
  List.insertionSort adminOrder (db.logs.filter (adminMatches f))

/-- `SELECT * FROM logs WHERE ... ORDER BY date ASC, id ASC` of the
daily-logs export (src/server.js line 182). -/
def exportLogRows (db : DB) (f : QueryFilter) : List LogRow :=
  List.insertionSort exportOrder (db.logs.filter (dailyLogsMatches f))

/-- The raw stop/log inner join of the stops export (src/server.js lines
212-215): one joined row per (stop, parent log) pair with `l.id = s.log_id`. -/
def stopJoin (db : DB) : List StopJoinRow :=
  db.stops.flatMap fun s =>
    (db.logs.filter (fun l => l.id = s.log_id)).map fun l => joinRow l s

/-- The stops export query (src/server.js lines 212-218): inner join,
shared filter on the parent fields, `ORDER BY l.date, l.id, s.stop_no`. -/
def exportStopRows (db : DB) (f : QueryFilter) : List StopJoinRow :=
  List.insertionSort stopOrder ((stopJoin db).filter (dailyStopsMatches f))

/-- The admin view's aggregate object (src/server.js lines 149-154). -/
structure Stats : Type where
  days : ℕ
  miles : ℚ
  value : ℚ
  pay : ℚ
  deriving DecidableEq

/-- `stats` as computed over the admin view's `rows`: row count and three
`reduce((s,r) => s + (r.x || 0), 0)` folds (null contributes 0). -/
def adminStats (db : DB) (f : QueryFilter) : Stats :=
  let rows := adminRows db f
  { days := rows.length
    miles := rows.foldl (fun s r => s + r.total_miles.getD 0) 0
    value := rows.foldl (fun s r => s + r.total_value_hours.getD 0) 0
    pay := rows.foldl (fun s r => s + r.gross_pay.getD 0) 0 }

/-- A CSV cell value of the export projections: string or number. -/
inductive Cell : Type
  | s : String → Cell
  | n : ℚ → Cell
  deriving DecidableEq

/-- Text of a cell as serialized. -/
def cellText : Cell → String
  | .s v => v
  | .n v => toString v

/-- The daily-logs export projection (src/server.js lines 183-199): a JS
object literal, modelled as its ordered key/value list (`Object.keys`
order is literal insertion order). -/
def logProject (r : LogRow) : List (String × Cell) :=
  [("Date", .s r.date),
   ("Driver Name", .s r.driver_name),
   ("Driver Email", .s r.driver_email),
   ("Truck #", .s r.truck_num),
   ("Start Miles", .n (r.start_miles.getD 0)),
   ("End Miles", .n (r.end_miles.getD 0)),
   ("Start Time", .s r.start_time),
   ("End Time", .s r.end_time),
   ("Rate/Mile", .n (r.rate_mile.getD 0)),
   ("Hourly Rate", .n (r.rate_hour.getD 0)),
   ("Total Miles", .n (r.total_miles.getD 0)),
   ("Total Time", .s r.total_time),
   ("Total Detention", .s r.total_detention),
   ("Total Value (hrs)", .n (r.total_value_hours.getD 0)),
   ("Gross Pay", .n (r.gross_pay.getD 0))]

/-- `Object.keys` of a projected row. -/
def objKeys (row : List (String × Cell)) : List String := row.map Prod.fst

/-- `sendCsv(res, out, Object.keys(out[0] || {}))` composed with
`stringify({header: true, columns})` (src/server.js lines 164-171, 200):
the first emitted row is the column list, then one data row per input row
projected onto those columns. The column list is derived from the first
row — `Object.keys({})` for an empty result set. -/
def csvOf (out : List (List (String × Cell))) : List (List String) :=
  let columns := match out with
    | [] => []
    | r :: _ => objKeys r
  columns :: out.map fun r => columns.map fun k => cellText ((r.lookup k).getD (.s ""))

/-- The full daily-logs CSV export for a filter set. -/
def logExportCsv (db : DB) (f : QueryFilter) : List (List String) :=
  csvOf ((exportLogRows db f).map logProject)

/-- The header row named by the spec for the daily-logs export. -/
def fixedLogHeader : List String :=
  ["Date", "Driver Name", "Driver Email", "Truck #", "Start Miles", "End Miles",
   "Start Time", "End Time", "Rate/Mile", "Hourly Rate", "Total Miles",
   "Total Time", "Total Detention", "Total Value (hrs)", "Gross Pay"]

/-- Log-level projection of an admin/log-export row: the log fields the
stops export also carries (date, driver name, truck number). -/
def projL (r : LogRow) : String × String × String := (r.date, r.driver_name, r.truck_num)

/-- Log-level restriction of a stops-export row. -/
def projS (r : StopJoinRow) : String × String × String := (r.date, r.driver_name, r.truck_num)

/-- The empty filter set: no query parameters supplied. -/
def f0 : QueryFilter := {}

/-- A submission whose `stops` array holds one (empty) stop object. -/
def payC1 : Payload := { stops := .arr [emptyStopPayload] }

/-- The storage state left behind when the stop transaction of `payC1`
fails on a fresh database: the log header alone, already committed. -/
def dbC1 : DB :=
  { logs := [mkLogRow payC1 "T" "D" 1], stops := [], nextLogId := 2, nextStopId := 1 }

/-- A default log row as persisted for `{}` on a fresh database. -/
def logRow1 : LogRow := mkLogRow emptyPayload "T" "2024-01-02" 1

/-- A database holding one log and no stops. -/
def dbL : DB := { logs := [logRow1], stops := [], nextLogId := 2, nextStopId := 1 }

/-- A default stop row attached to log 1. -/
def stopRow1 : StopRow := mkStopRow 1 1 emptyStopPayload

/-- A database holding one log that owns one stop. -/
def dbW : DB := { logs := [logRow1], stops := [stopRow1], nextLogId := 2, nextStopId := 2 }

/-- A dangling stop row: `log_id` 7 matches no log of `dbL`. -/
def stopRowDangling : StopRow := mkStopRow 7 2 emptyStopPayload

/-- A stop object with a non-numeric `stop_no` and a numeric `value_hours`. -/
def stopBadNo : StopPayload := { stop_no := .str "x", value_hours := .num 5 }

/-- A submission carrying `stopBadNo` as its only stop. -/
def payC5 : Payload := { stops := .arr [stopBadNo] }

/-- A submission whose `start_miles` is the non-numeric string "abc". -/
def payC6 : Payload := { start_miles := .str "abc" }

/-- The success-branch contents of a submission outcome, if any. -/
def okState : Except DB (DB × ℕ) → Option (DB × ℕ)
  | .ok x => some x
  | .error _ => none

/-! ## Helper lemmas and order instances -/

theorem list_foldl_add_map {α : Type} (g : α → ℚ) (l : List α) :
    ∀ a : ℚ, l.foldl (fun s r => s + g r) a = a + (l.map g).sum := by
  induction l with
  | nil => intro a; simp
  | cons x xs ih => intro a; simp [ih, add_assoc]

instance : IsTrans LogRow adminOrder :=
  ⟨fun a b c hab hbc => by
    rcases hab with h1 | ⟨h1, h2⟩ <;> rcases hbc with h3 | ⟨h3, h4⟩
    · exact Or.inl (h3.trans h1)
    · exact Or.inl (lt_of_le_of_lt (le_of_eq h3) h1)
    · exact Or.inl (lt_of_lt_of_le h3 (le_of_eq h1))
    · exact Or.inr ⟨h3.trans h1, le_trans h4 h2⟩⟩

instance : IsTotal LogRow adminOrder :=
  ⟨fun a b => by
    rcases lt_trichotomy a.date b.date with h | h | h
    · exact Or.inr (Or.inl h)
    · rcases le_total b.id a.id with hid | hid
      · exact Or.inl (Or.inr ⟨h.symm, hid⟩)
      · exact Or.inr (Or.inr ⟨h, hid⟩)
    · exact Or.inl (Or.inl h)⟩

instance : IsTrans LogRow exportOrder :=
  ⟨fun a b c hab hbc => by
    rcases hab with h1 | ⟨h1, h2⟩ <;> rcases hbc with h3 | ⟨h3, h4⟩
    · exact Or.inl (h1.trans h3)
    · exact Or.inl (lt_of_lt_of_le h1 (le_of_eq h3))
    · exact Or.inl (lt_of_le_of_lt (le_of_eq h1) h3)
    · exact Or.inr ⟨h1.trans h3, le_trans h2 h4⟩⟩

instance : IsTotal LogRow exportOrder :=
  ⟨fun a b => by
    rcases lt_trichotomy a.date b.date with h | h | h
    · exact Or.inl (Or.inl h)
    · rcases le_total a.id b.id with hid | hid
      · exact Or.inl (Or.inr ⟨h, hid⟩)
      · exact Or.inr (Or.inr ⟨h.symm, hid⟩)
    · exact Or.inr (Or.inl h)⟩

theorem optLeQ_trans : ∀ x y z : Option ℚ, optLeQ x y → optLeQ y z → optLeQ x z
  | none, _, _, _, _ => trivial
  | some _, none, _, h, _ => absurd h not_false
  | some _, some _, none, _, h => absurd h not_false
  | some _, some _, some _, h1, h2 => le_trans h1 h2

theorem optLeQ_total : ∀ x y : Option ℚ, optLeQ x y ∨ optLeQ y x
  | none, _ => Or.inl trivial
  | some _, none => Or.inr trivial
  | some a, some b => le_total a b

instance : IsTrans StopJoinRow stopOrder :=
  ⟨fun a b c hab hbc => by
    rcases hab with h1 | ⟨h1, hab⟩ <;> rcases hbc with h3 | ⟨h3, hbc⟩
    · exact Or.inl (h1.trans h3)
    · exact Or.inl (lt_of_lt_of_le h1 (le_of_eq h3))
    · exact Or.inl (lt_of_le_of_lt (le_of_eq h1) h3)
    · refine Or.inr ⟨h1.trans h3, ?_⟩
      rcases hab with g1 | ⟨g1, g2⟩ <;> rcases hbc with g3 | ⟨g3, g4⟩
      · exact Or.inl (g1.trans g3)
      · exact Or.inl (lt_of_lt_of_le g1 (le_of_eq g3))
      · exact Or.inl (lt_of_le_of_lt (le_of_eq g1) g3)
      · exact Or.inr ⟨g1.trans g3, optLeQ_trans _ _ _ g2 g4⟩⟩

instance : IsTotal StopJoinRow stopOrder :=
  ⟨fun a b => by
    rcases lt_trichotomy a.date b.date with h | h | h
    · exact Or.inl (Or.inl h)
    · rcases lt_trichotomy a.log_id b.log_id with g | g | g
      · exact Or.inl (Or.inr ⟨h, Or.inl g⟩)
      · rcases optLeQ_total a.stop_no b.stop_no with ho | ho
        · exact Or.inl (Or.inr ⟨h, Or.inr ⟨g, ho⟩⟩)
        · exact Or.inr (Or.inr ⟨h.symm, Or.inr ⟨g.symm, ho⟩⟩)
      · exact Or.inr (Or.inr ⟨h.symm, Or.inl g⟩)
    · exact Or.inr (Or.inl h)⟩

/-! ## Claim theorems -/

/-- C7: submitting the empty payload `{}` persists exactly one new
LogEntry whose numeric fields are all 0, whose text fields are all the
empty string, whose date is the current date, with zero StopEntries, and
the handler answers `{ok: true, id}` with the new row's identity. -/
theorem C7_default_coercion (now today : String) (db : DB) :
    submit emptyPayload now today (fun _ => false) db =
      .ok
        ({ db with
            logs := db.logs ++
              [{ id := db.nextLogId, created_at := now, date := today,
                 driver_name := "", driver_email := "", cc_email := "", truck_num := "",
                 start_miles := some 0, end_miles := some 0, start_time := "", end_time := "",
                 rate_mile := some 0, rate_hour := some 0, total_miles := some 0,
                 total_time := "", total_detention := "", total_value_hours := some 0,
                 gross_pay := some 0 }]
            nextLogId := db.nextLogId + 1 },
          db.nextLogId) := rfl

/-- C8: the admin view's aggregate stats are computed over exactly the
filtered row set — `days` is its row count, `miles`/`value`/`pay` the sums
of `total_miles`/`total_value_hours`/`gross_pay` with SQL NULL counted as
0 — and an empty filtered set yields all-zero stats. -/
theorem C8_aggregates (db : DB) (f : QueryFilter) :
    (adminStats db f).days = (db.logs.filter (adminMatches f)).length ∧
    (adminStats db f).miles =
      ((db.logs.filter (adminMatches f)).map (fun r => r.total_miles.getD 0)).sum ∧
    (adminStats db f).value =
      ((db.logs.filter (adminMatches f)).map (fun r => r.total_value_hours.getD 0)).sum ∧
    (adminStats db f).pay =
      ((db.logs.filter (adminMatches f)).map (fun r => r.gross_pay.getD 0)).sum ∧
    (db.logs.filter (adminMatches f) = [] → adminStats db f = ⟨0, 0, 0, 0⟩) := by
  have hperm := List.perm_insertionSort adminOrder (db.logs.filter (adminMatches f))
  refine ⟨?_, ?_, ?_, ?_, ?_⟩
  · exact hperm.length_eq
  · show (adminRows db f).foldl (fun s r => s + r.total_miles.getD 0) 0 = _
    rw [list_foldl_add_map, zero_add]
    exact (hperm.map (fun r => r.total_miles.getD 0)).sum_eq
  · show (adminRows db f).foldl (fun s r => s + r.total_value_hours.getD 0) 0 = _
    rw [list_foldl_add_map, zero_add]
    exact (hperm.map (fun r => r.total_value_hours.getD 0)).sum_eq
  · show (adminRows db f).foldl (fun s r => s + r.gross_pay.getD 0) 0 = _
    rw [list_foldl_add_map, zero_add]
    exact (hperm.map (fun r => r.gross_pay.getD 0)).sum_eq
  · intro hnil
    simp [adminStats, adminRows, hnil]

/-- C8 witness: on a fresh database with the empty filter, the filtered
set is empty and the stats are all zero. -/
theorem C8_aggregates_witness : adminStats dbEmpty f0 = ⟨0, 0, 0, 0⟩ :=
  (C8_aggregates dbEmpty f0).2.2.2.2 rfl

/-- C9: the admin view returns rows ordered by date descending then id
descending, while both exports return rows ordered ascending — the stop
export additionally by stop sequence number within a log. -/
theorem C9_ordering (db : DB) (f : QueryFilter) :
    List.Sorted adminOrder (adminRows db f) ∧
    List.Sorted exportOrder (exportLogRows db f) ∧
    List.Sorted stopOrder (exportStopRows db f) :=
  ⟨List.sorted_insertionSort adminOrder _, List.sorted_insertionSort exportOrder _,
    List.sorted_insertionSort stopOrder _⟩

theorem stopsTxGo_none_exists (logId : ℕ) (fails : ℕ → Bool) :
    ∀ (ss : List StopPayload) (i : ℕ) (db : DB), stopsTxGo logId fails i ss db = none →
      ∃ j, i ≤ j ∧ j < i + ss.length ∧ fails j = true := by
  intro ss
  induction ss with
  | nil => intro i db h; simp [stopsTxGo] at h
  | cons s rest ih =>
      intro i db h
      simp only [stopsTxGo] at h
      by_cases hf : fails i = true
      · refine ⟨i, le_refl i, ?_, hf⟩
        simp only [List.length_cons]
        omega
      · simp only [hf, if_false, Bool.false_eq_true] at h
        obtain ⟨j, h1, h2, h3⟩ := ih (i + 1) _ h
        refine ⟨j, by omega, ?_, h3⟩
        simp only [List.length_cons] at h2 ⊢
        omega

theorem stopsTxGo_no_failure (logId : ℕ) (fails : ℕ → Bool) (hf : ∀ i, fails i = false) :
    ∀ (ss : List StopPayload) (i : ℕ) (db : DB), ∃ db2, stopsTxGo logId fails i ss db = some db2 := by
  intro ss
  induction ss with
  | nil => intro i db; exact ⟨db, rfl⟩
  | cons s rest ih =>
      intro i db
      obtain ⟨db2, h2⟩ := ih (i + 1) (appendStop logId s db)
      exact ⟨db2, by simp only [stopsTxGo, hf i, if_false, Bool.false_eq_true]; exact h2⟩

/-- C1 counterexample: on a fresh database, a submission with one stop
whose insert fails leaves the request in the error state with the log
header already persisted — the storage state is not unchanged, refuting
all-or-nothing atomicity of the log insert plus stop inserts. -/
theorem C1_counterexample :
    errState (submit payC1 "T" "D" (fun _ => true) dbEmpty) = some dbC1 ∧
    dbC1.logs.length = 1 ∧ dbEmpty.logs.length = 0 :=
  ⟨rfl, rfl, rfl⟩

/-- C1 as amended: only the stop inserts run inside the transaction. If
any stop insert fails, no stop from the submission is persisted (the stop
table is exactly as before), but the LogEntry insert — an autocommitting
statement issued before the transaction — remains persisted. -/
theorem C1_atomicity_amended (d : Payload) (now today : String) (fails : ℕ → Bool)
    (db db1 : DB) (h : submit d now today fails db = .error db1) :
    db1.stops = db.stops ∧
    db1.logs = db.logs ++ [mkLogRow d now today db.nextLogId] ∧
    db1.nextLogId = db.nextLogId + 1 ∧
    ∃ j < (stopsOf d).length, fails j = true := by
  simp only [submit, insertLogRow] at h
  cases htx : stopsTx db.nextLogId (stopsOf d) fails
      { db with logs := db.logs ++ [mkLogRow d now today db.nextLogId],
                nextLogId := db.nextLogId + 1 } with
  | some db2 => rw [htx] at h; exact absurd h (by simp)
  | none =>
      rw [htx] at h
      simp only [Except.error.injEq] at h
      subst h
      refine ⟨rfl, rfl, rfl, ?_⟩
      obtain ⟨j, h1, h2, h3⟩ := stopsTxGo_none_exists db.nextLogId fails (stopsOf d) 0 _ htx
      exact ⟨j, by omega, h3⟩

/-- C1 witness: the amended statement applied to the concrete failing
one-stop submission on a fresh database. -/
theorem C1_atomicity_witness :
    dbC1.stops = dbEmpty.stops ∧
    dbC1.logs = dbEmpty.logs ++ [mkLogRow payC1 "T" "D" dbEmpty.nextLogId] ∧
    dbC1.nextLogId = dbEmpty.nextLogId + 1 ∧
    ∃ j < (stopsOf payC1).length, (fun _ : ℕ => true) j = true :=
  C1_atomicity_amended payC1 "T" "D" (fun _ => true) dbEmpty dbC1 rfl

/-- C4 counterexample: with an empty filtered result set the daily-logs
export derives its column list from `Object.keys(out[0] || {})`, so the
CSV's first row is the empty column list, not the fixed header labels. -/
theorem C4_counterexample :
    logExportCsv dbEmpty f0 = [[]] ∧ fixedLogHeader ≠ [] :=
  ⟨rfl, by decide⟩

/-- C4 as amended: when the filtered result set is non-empty the first
CSV row is exactly the fixed header labels (the projected object's key
order), but the columns are derived from the first data row, so an empty
result set yields an empty column list instead of the header. -/
theorem C4_header_amended (db : DB) (f : QueryFilter) :
    (∀ r, objKeys (logProject r) = fixedLogHeader) ∧
    (exportLogRows db f ≠ [] → (logExportCsv db f).head? = some fixedLogHeader) ∧
    (exportLogRows db f = [] → logExportCsv db f = [[]]) := by
  refine ⟨fun r => rfl, ?_, ?_⟩
  · intro h
    cases hrows : exportLogRows db f with
    | nil => exact absurd hrows h
    | cons r rest => simp [logExportCsv, csvOf, hrows]; rfl
  · intro h
    simp [logExportCsv, csvOf, h]

/-- C4 witness: the amended statement applied to a database holding one
log row, where the export's first row is the fixed header. -/
theorem C4_header_witness : (logExportCsv dbL f0).head? = some fixedLogHeader :=
  (C4_header_amended dbL f0).2.1 (by decide)

/-- C5 counterexample: a submission whose single stop carries
`stop_no: "x"` and `value_hours: 5` persists `stop_no` as SQL NULL
(`Number("x")` is NaN, bound as NULL) while `value_hours` is 5 — so
`value_hours` is not the single stop field that can persist as null. -/
theorem C5_counterexample :
    (okState (submit payC5 "T" "D" (fun _ => false) dbEmpty)).map
        (fun x => x.1.stops.map (fun s => (s.stop_no, s.value_hours))) =
      some [(none, some 5)] := rfl

/-- C5 as amended: the persisted `value_hours` is null when the caller
supplies the empty string, 0 when the field is absent, and the JS numeric
coercion of the supplied value otherwise; but it is not the single stop
field permitted to persist as null — a non-numeric string in `stop_no`
also persists as null via NaN. -/
theorem C5_value_hours_amended (s : StopPayload) (logId sid : ℕ) :
    ((mkStopRow logId sid s).value_hours =
        if s.value_hours = .str "" then none else numField s.value_hours) ∧
    (s.value_hours = .str "" → (mkStopRow logId sid s).value_hours = none) ∧
    (s.value_hours = .undef → (mkStopRow logId sid s).value_hours = some 0) ∧
    (∀ q, s.value_hours = .num q → (mkStopRow logId sid s).value_hours = some q) ∧
    (mkStopRow logId sid stopBadNo).stop_no = none := by
  refine ⟨rfl, ?_, ?_, ?_, rfl⟩
  · intro h; simp [mkStopRow, h]
  · intro h; simp [mkStopRow, h, numField, jOr, JVal.truthy, JVal.toNumber]
  · intro q h
    by_cases hq : q = 0 <;>
      simp [mkStopRow, h, hq, numField, jOr, JVal.truthy, JVal.toNumber]

/-- C5 witness: the amended statement applied to the empty stop object —
its absent `value_hours` persists as 0. -/
theorem C5_value_hours_witness : (mkStopRow 1 1 emptyStopPayload).value_hours = some 0 :=
  (C5_value_hours_amended emptyStopPayload 1 1).2.2.1 rfl

/-- C6 counterexample: submitting `{start_miles: "abc"}` persists
`start_miles` as SQL NULL (`Number("abc")` is NaN, bound as NULL), not 0,
refuting "absent or non-numeric numeric input is stored as 0". -/
theorem C6_counterexample :
    (okState (submit payC6 "T" "D" (fun _ => false) dbEmpty)).map
        (fun x => x.1.logs.map (fun r => r.start_miles)) = some [none] ∧
    (none : Option ℚ) ≠ some 0 :=
  ⟨rfl, by decide⟩

/-- C6 as amended: numeric LogEntry fields store 0 when the input is
absent, null, or otherwise falsy, and the JS numeric coercion of the value
otherwise — a truthy non-numeric string coerces to NaN and persists as SQL
NULL, not 0; text fields store the empty string when absent; a `stops`
value that is not an array is treated as the empty list; and with no
storage failure the handler accepts any payload, answering ok with the new
row id. -/
theorem C6_coercion_amended (d : Payload) (now today : String) (id : ℕ) :
    ((mkLogRow d now today id).start_miles = numField d.start_miles ∧
      (mkLogRow d now today id).end_miles = numField d.end_miles ∧
      (mkLogRow d now today id).rate_mile = numField d.rate_mile ∧
      (mkLogRow d now today id).rate_hour = numField d.rate_hour ∧
      (mkLogRow d now today id).total_miles = numField d.total_miles ∧
      (mkLogRow d now today id).total_value_hours = numField d.total_value_hours ∧
      (mkLogRow d now today id).gross_pay = numField d.gross_pay) ∧
    (numField .undef = some 0 ∧ numField .null = some 0 ∧
      (∀ q, numField (.num q) = some q) ∧
      (∀ s : String, numField (.str s) = if s = "" then some 0 else parseNumber s) ∧
      parseNumber "abc" = none) ∧
    ((mkLogRow d now today id).driver_name = textField d.driver_name ∧
      (mkLogRow d now today id).total_time = textField d.total_time ∧
      textField .undef = "" ∧ textField .null = "") ∧
    ((∀ v, d.stops = .jsval v → stopsOf d = []) ∧
      (∀ l, d.stops = .arr l → stopsOf d = l)) ∧
    (∀ fails : ℕ → Bool, (∀ i, fails i = false) →
      ∀ db : DB, ∃ db2, submit d now today fails db = .ok (db2, db.nextLogId)) := by
  refine ⟨⟨rfl, rfl, rfl, rfl, rfl, rfl, rfl⟩,
    ⟨rfl, rfl, ?_, ?_, rfl⟩, ⟨rfl, rfl, rfl, rfl⟩,
    ⟨fun v hv => by simp [stopsOf, hv], fun l hl => by simp [stopsOf, hl]⟩, ?_⟩
  · intro q
    by_cases hq : q = 0 <;> simp [numField, jOr, JVal.truthy, JVal.toNumber, hq]
  · intro s
    by_cases hs : s = "" <;> simp [numField, jOr, JVal.truthy, JVal.toNumber, hs]
  · intro fails hf db
    obtain ⟨db2, h2⟩ :=
      stopsTxGo_no_failure (insertLogRow db (mkLogRow d now today db.nextLogId)).2 fails hf
        (stopsOf d) 0 (insertLogRow db (mkLogRow d now today db.nextLogId)).1
    refine ⟨db2, ?_⟩
    simp only [submit, stopsTx]
    rw [h2]
    rfl

/-- C6 witness: the amended statement accepts the `{start_miles: "abc"}`
submission on a fresh database without rejecting it. -/
theorem C6_coercion_witness :
    ∃ db2, submit payC6 "T" "D" (fun _ => false) dbEmpty = .ok (db2, dbEmpty.nextLogId) :=
  (C6_coercion_amended payC6 "T" "D" 1).2.2.2.2 (fun _ => false) (fun _ => rfl) dbEmpty

theorem stopsTxGo_state (logId : ℕ) (fails : ℕ → Bool) :
    ∀ (ss : List StopPayload) (i : ℕ) (db db2 : DB),
      stopsTxGo logId fails i ss db = some db2 →
        db2.logs = db.logs ∧ db2.nextLogId = db.nextLogId ∧
          ∀ s ∈ db2.stops, s ∈ db.stops ∨ s.log_id = logId := by
  intro ss
  induction ss with
  | nil =>
      intro i db db2 h
      cases h
      exact ⟨rfl, rfl, fun s hs => Or.inl hs⟩
  | cons s rest ih =>
      intro i db db2 h
      simp only [stopsTxGo] at h
      by_cases hf : fails i = true
      · simp [hf] at h
      · simp only [hf, if_false, Bool.false_eq_true] at h
        obtain ⟨h1, h2, h3⟩ := ih (i + 1) _ _ h
        refine ⟨h1, h2, fun t ht => ?_⟩
        rcases h3 t ht with ht2 | ht2
        · simp only [appendStop, List.mem_append, List.mem_singleton] at ht2
          rcases ht2 with ht3 | rfl
          · exact Or.inl ht3
          · exact Or.inr rfl
        · exact Or.inr ht2

theorem wf_submit (d : Payload) (now today : String) (fails : ℕ → Bool) (db : DB)
    (h : wf db) :
    (∀ db1, submit d now today fails db = .error db1 → wf db1) ∧
    (∀ db2 i, submit d now today fails db = .ok (db2, i) → wf db2) := by
  obtain ⟨hnd, hlt, hst⟩ := h
  have hwf1 : wf { db with logs := db.logs ++ [mkLogRow d now today db.nextLogId],
                           nextLogId := db.nextLogId + 1 } := by
    refine ⟨?_, ?_, ?_⟩
    · rw [List.map_append, List.nodup_append]
      refine ⟨hnd, List.nodup_singleton _, fun x hx hy => ?_⟩
      simp only [List.map_cons, List.map_nil, List.mem_singleton] at hy
      simp only [List.mem_map] at hx
      obtain ⟨l, hl, rfl⟩ := hx
      have := hlt l hl
      simp only [mkLogRow] at hy
      omega
    · intro l hl
      rcases List.mem_append.mp hl with hl2 | hl2
      · exact Nat.lt_succ_of_lt (hlt l hl2)
      · simp only [List.mem_singleton] at hl2
        subst hl2
        simp [mkLogRow]
    · intro s hs
      obtain ⟨l, hl, hid⟩ := hst s hs
      exact ⟨l, List.mem_append_left _ hl, hid⟩
  constructor
  · intro db1 herr
    simp only [submit, insertLogRow] at herr
    cases htx : stopsTx db.nextLogId (stopsOf d) fails
        { db with logs := db.logs ++ [mkLogRow d now today db.nextLogId],
                  nextLogId := db.nextLogId + 1 } with
    | some dbx => rw [htx] at herr; exact absurd herr (by simp)
    | none =>
        rw [htx] at herr
        simp only [Except.error.injEq] at herr
        subst herr
        exact hwf1
  · intro db2 i hok
    simp only [submit, insertLogRow] at hok
    cases htx : stopsTx db.nextLogId (stopsOf d) fails
        { db with logs := db.logs ++ [mkLogRow d now today db.nextLogId],
                  nextLogId := db.nextLogId + 1 } with
    | none => rw [htx] at hok; exact absurd hok (by simp)
    | some dbx =>
        rw [htx] at hok
        simp only [Except.ok.injEq, Prod.mk.injEq] at hok
        obtain ⟨rfl, rfl⟩ := hok
        obtain ⟨h1, h2, h3⟩ := stopsTxGo_state db.nextLogId fails (stopsOf d) 0 _ _ htx
        obtain ⟨w1, w2, w3⟩ := hwf1
        refine ⟨by rw [h1]; exact w1, by rw [h1, h2]; exact w2, ?_⟩
        intro s hs
        rcases h3 s hs with hs2 | hs2
        · obtain ⟨l, hl, hid⟩ := w3 s hs2
          rw [h1]
          exact ⟨l, hl, hid⟩
        · refine ⟨mkLogRow d now today db.nextLogId, ?_, ?_⟩
          · rw [h1]; exact List.mem_append_right _ (List.mem_singleton_self _)
          · rw [hs2]; rfl

/-- C2: every persisted StopEntry references exactly one LogEntry, the
storage layer rejects a stop insert whose `log_id` matches no log, and
deleting a LogEntry cascades deletion of exactly its StopEntries; the
well-formedness invariant holds of the fresh database and is preserved by
every operation (ingestion in both outcomes, raw stop insert, delete). -/
theorem C2_referential_integrity :
    (∀ (db : DB) (r : StopRow),
      (insertStopRaw db r).isSome = true ↔ ∃ l ∈ db.logs, l.id = r.log_id) ∧
    (∀ db : DB, wf db → ∀ s ∈ db.stops, ∃! l, l ∈ db.logs ∧ l.id = s.log_id) ∧
    (∀ (db : DB) (i : ℕ),
      (∀ s ∈ (deleteLog db i).stops, s.log_id ≠ i) ∧
      (∀ s ∈ db.stops, s.log_id ≠ i → s ∈ (deleteLog db i).stops) ∧
      (∀ l ∈ (deleteLog db i).logs, l.id ≠ i)) ∧
    wf dbEmpty ∧
    (∀ db : DB, wf db → ∀ i, wf (deleteLog db i)) ∧
    (∀ (db : DB) (r : StopRow) (db1 : DB), wf db → insertStopRaw db r = some db1 → wf db1) ∧
    (∀ (d : Payload) (now today : String) (fails : ℕ → Bool) (db : DB), wf db →
      (∀ db1, submit d now today fails db = .error db1 → wf db1) ∧
      (∀ db2 i, submit d now today fails db = .ok (db2, i) → wf db2)) := by
  refine ⟨?_, ?_, ?_, ?_, ?_, ?_, wf_submit⟩
  · intro db r
    rw [insertStopRaw]
    by_cases h : db.logs.any (fun l => l.id = r.log_id) = true
    · simp only [h, if_true, Option.isSome_some, true_iff]
      simpa using h
    · simp only [h, if_false]
      constructor
      · intro hc; cases hc
      · intro hc
        exact absurd (by simpa using hc) h
  · intro db hw s hs
    obtain ⟨l, hl, hid⟩ := hw.2.2 s hs
    refine ⟨l, ⟨hl, hid⟩, ?_⟩
    rintro y ⟨hy, hyid⟩
    exact List.inj_on_of_nodup_map hw.1 hy hl (by rw [hyid, hid])
  · intro db i
    refine ⟨?_, ?_, ?_⟩
    · intro s hs
      have := List.of_mem_filter hs
      simpa using this
    · intro s hs hne
      exact List.mem_filter.mpr ⟨hs, by simpa using hne⟩
    · intro l hl
      have := List.of_mem_filter hl
      simpa using this
  · exact ⟨List.nodup_nil, fun l hl => absurd hl (List.not_mem_nil l), fun s hs =>
      absurd hs (List.not_mem_nil s)⟩
  · intro db hw i
    obtain ⟨hnd, hlt, hst⟩ := hw
    refine ⟨?_, ?_, ?_⟩
    · exact List.Nodup.sublist ((db.logs.filter_sublist).map _) hnd
    · intro l hl
      exact hlt l (List.mem_of_mem_filter hl)
    · intro s hs
      obtain ⟨l, hl, hid⟩ := hst s (List.mem_of_mem_filter hs)
      have hsne : ¬s.log_id = i := by simpa using List.of_mem_filter hs
      refine ⟨l, List.mem_filter.mpr ⟨hl, ?_⟩, hid⟩
      simp only [Bool.not_eq_eq_eq_not, Bool.not_true, decide_eq_false_iff_not]
      intro hcon
      exact hsne (hid ▸ hcon)
  · intro db r db1 hw hins
    rw [insertStopRaw] at hins
    by_cases h : db.logs.any (fun l => l.id = r.log_id) = true
    · rw [if_pos h] at hins
      obtain rfl := Option.some.inj hins
      obtain ⟨hnd, hlt, hst⟩ := hw
      refine ⟨hnd, hlt, ?_⟩
      intro s hs
      rcases List.mem_append.mp hs with hs2 | hs2
      · exact hst s hs2
      · simp only [List.mem_singleton] at hs2
        subst hs2
        simpa using h
    · rw [if_neg h] at hins
      cases hins

/-- C2 witness: on a concrete well-formed database holding one log and
one stop, the stop's `log_id` is matched by exactly one log. -/
theorem C2_referential_witness : ∃! l, l ∈ dbW.logs ∧ l.id = stopRow1.log_id :=
  C2_referential_integrity.2.1 dbW (by unfold wf; decide) stopRow1 (by decide)

/-- C3 counterexample: on a database holding one log with zero stops and
the empty filter, the log's log-level fields appear in the admin view's
row set but the stops export is empty — the three row sets are not
identical in membership, because the stops export's inner join drops
matching logs that own no stops. -/
theorem C3_counterexample :
    projL logRow1 ∈ (adminRows dbL f0).map projL ∧
    projL logRow1 ∉ (exportStopRows dbL f0).map projS :=
  ⟨by decide, by decide⟩

/-- C3 as amended: all three read paths build the identical filter
predicate, so the admin view and the log export return exactly the same
membership (the filtered logs), and the stops export returns exactly the
stops whose parent log matches that same predicate — its log-level
restriction therefore covers the matching logs that own at least one
stop, not all matching logs. -/
theorem C3_filter_consistency_amended (db : DB) (f : QueryFilter) :
    (∀ r, adminMatches f r = dailyLogsMatches f r) ∧
    (∀ l s, dailyStopsMatches f (joinRow l s) = adminMatches f l) ∧
    (∀ r, r ∈ adminRows db f ↔ r ∈ db.logs ∧ adminMatches f r = true) ∧
    (∀ r, r ∈ exportLogRows db f ↔ r ∈ db.logs ∧ adminMatches f r = true) ∧
    (∀ v, v ∈ (adminRows db f).map projL ↔ v ∈ (exportLogRows db f).map projL) ∧
    (∀ x, x ∈ exportStopRows db f ↔
      ∃ s ∈ db.stops, ∃ l ∈ db.logs, l.id = s.log_id ∧ adminMatches f l = true ∧
        x = joinRow l s) := by
  have h3 : ∀ r, r ∈ adminRows db f ↔ r ∈ db.logs ∧ adminMatches f r = true := by
    intro r
    rw [adminRows, (List.perm_insertionSort adminOrder _).mem_iff, List.mem_filter]
  have h4 : ∀ r, r ∈ exportLogRows db f ↔ r ∈ db.logs ∧ adminMatches f r = true := by
    intro r
    rw [exportLogRows, (List.perm_insertionSort exportOrder _).mem_iff, List.mem_filter]
    exact Iff.rfl
  refine ⟨fun r => rfl, fun l s => rfl, h3, h4, ?_, ?_⟩
  · intro v
    simp only [List.mem_map]
    constructor
    · rintro ⟨r, hr, rfl⟩
      exact ⟨r, (h4 r).mpr ((h3 r).mp hr), rfl⟩
    · rintro ⟨r, hr, rfl⟩
      exact ⟨r, (h3 r).mpr ((h4 r).mp hr), rfl⟩
  · intro x
    rw [exportStopRows, (List.perm_insertionSort stopOrder _).mem_iff, List.mem_filter]
    simp only [stopJoin, List.mem_flatMap, List.mem_map, List.mem_filter, decide_eq_true_eq]
    constructor
    · rintro ⟨⟨s, hs, l, ⟨hl, hid⟩, rfl⟩, hm⟩
      exact ⟨s, hs, l, hl, hid, hm, rfl⟩
    · rintro ⟨s, hs, l, hl, hid, hm, rfl⟩
      exact ⟨⟨s, hs, l, ⟨hl, hid⟩, rfl⟩, hm⟩

theorem starHelper_append (k : List Char → Bool) (ts : List Char) (h : k ts = true) :
    ∀ ss : List Char, starHelper k (ss ++ ts) = true := by
  intro ss
  induction ss with
  | nil =>
      cases ts with
      | nil => simpa [starHelper] using h
      | cons c rest => simp [starHelper, h]
  | cons c cs ih => simp [starHelper, ih]

theorem likeM_pct_append (ps ts : List Char) (h : likeM ps ts = true) (ss : List Char) :
    likeM ('%' :: ps) (ss ++ ts) = true := by
  have heq : likeM ('%' :: ps) (ss ++ ts) = starHelper (likeM ps) (ss ++ ts) := by
    simp [likeM]
  rw [heq]
  exact starHelper_append (likeM ps) ts h ss

/-- C10: all three read paths treat a non-empty `driver` filter as
`driver_name LIKE '%' + driver + '%'`, so `%` and `_` inside the supplied
filter act as LIKE wildcards: a filter of "a%z" matches every driver name
containing an 'a' anywhere before a 'z' — for instance "abz", which does
not contain the literal substring "a%z". -/
theorem C10_like_wildcards :
    (∀ (d : String) (r : LogRow), d ≠ "" →
      adminMatches { driver := some d } r = sqlLike ("%" ++ d ++ "%") r.driver_name ∧
      dailyLogsMatches { driver := some d } r = sqlLike ("%" ++ d ++ "%") r.driver_name) ∧
    (∀ (d : String) (x : StopJoinRow), d ≠ "" →
      dailyStopsMatches { driver := some d } x = sqlLike ("%" ++ d ++ "%") x.driver_name) ∧
    (∀ u v w : String, sqlLike "%a%z%" (u ++ "a" ++ v ++ "z" ++ w) = true) ∧
    sqlLike "%a%z%" "abz" = true ∧
    containsLit "a%z" "abz" = false := by
  refine ⟨?_, ?_, ?_, by decide, by decide⟩
  · intro d r hd
    constructor <;> simp [adminMatches, dailyLogsMatches, hd]
  · intro d x hd
    simp [dailyStopsMatches, hd]
  · intro u v w
    have h00 : likeM ([] : List Char) [] = true := rfl
    have h0 : likeM ['%'] w.toList = true := by
      have hh := starHelper_append (likeM []) [] h00 w.toList
      rw [List.append_nil] at hh
      exact hh
    have hz : likeM ('z' :: ['%']) ('z' :: w.toList) = true := by
      show (likeCharEq 'z' 'z' && likeM ['%'] w.toList) = true
      rw [h0]
      decide
    have h2 : likeM ('%' :: 'z' :: ['%']) (v.toList ++ 'z' :: w.toList) = true :=
      likeM_pct_append _ _ hz v.toList
    have ha : likeM ('a' :: '%' :: 'z' :: ['%']) ('a' :: (v.toList ++ 'z' :: w.toList)) = true := by
      show (likeCharEq 'a' 'a' && likeM ('%' :: 'z' :: ['%']) (v.toList ++ 'z' :: w.toList)) = true
      rw [h2]
      decide
    have h3 : likeM ('%' :: 'a' :: '%' :: 'z' :: ['%'])
        (u.toList ++ 'a' :: (v.toList ++ 'z' :: w.toList)) = true :=
      likeM_pct_append _ _ ha u.toList
    have hsubj : (u ++ "a" ++ v ++ "z" ++ w).toList =
        u.toList ++ 'a' :: (v.toList ++ 'z' :: w.toList) := by
      simp [String.toList, String.data_append]
    rw [sqlLike, hsubj]
    exact h3

/-- C10 witness: the LIKE reading applied at the concrete filter "a%z"
and a concrete row. -/
theorem C10_like_witness :
    adminMatches { driver := some "a%z" } logRow1 =
      sqlLike ("%" ++ "a%z" ++ "%") logRow1.driver_name :=
  (C10_like_wildcards.1 "a%z" logRow1 (by decide)).1
